import Mathlib

/-!
Shallow embedding of `code/utils.py` (Auckland_Cycling helper routines).

A pandas numeric column (a `Series` of floats that may contain `NaN`) is
modelled as a `List (Option ℚ)`: `none` is the missing-value marker
(`np.nan`), `some q` a present value.  Exact rationals stand in for the
floating-point numbers of the source.

`median_filter` (utils.py lines 33-43):
  dfc = df.loc[:,[varname]]
  dfc['median'] = dfc[varname].rolling(window, center=True).median()
  dfc['std']    = dfc[varname].rolling(window, center=True).std()
  dfc.loc[dfc.loc[:,varname] >= dfc['median']+std*dfc['std'], varname] = np.nan
  dfc.loc[dfc.loc[:,varname] <= dfc['median']-std*dfc['std'], varname] = np.nan
  return dfc.loc[:, varname]

pandas semantics embedded here:
* `rolling(window, center=True)` on a fixed integer window uses the window
  bounds of `FixedWindowIndexer`: for position `i` the window covers the
  indices `[i + 1 + offset - window, i + 1 + offset)` intersected with the
  series, where `offset = (window - 1) / 2` (integer division) — for an even
  window the extra element lies before the centre.
* `min_periods` defaults to the window size for an integer window, so the
  rolling statistic at `i` is `NaN` unless the window holds `window`
  non-`NaN` observations.
* `.median()` is the usual sample median (mean of the two central order
  statistics for an even count); `.std()` is the sample standard deviation
  with `ddof = 1` (`NaN` for fewer than two observations).
* Comparisons (`>=`, `<=`) involving `NaN` are `False`, so rows whose value,
  median or std is missing are never selected by the two boolean masks.
-/

attribute [local semireducible] Rat.mul Rat.inv Rat.add Rat.sub

/-- A pandas Series of floats: `none` models `NaN`. -/
abbrev Series := List (Option ℚ)

/-- The slice of the series seen by the centred rolling window of length `w`
at position `i`: indices `[i+1+offset-w, i+1+offset)` clipped to the series,
with `offset = (w-1)/2` (pandas `FixedWindowIndexer` with `center=True`). -/
def windowSlice (w : ℕ) (xs : Series) (i : ℕ) : Series :=
  (xs.take (i + 1 + (w - 1) / 2)).drop (i + 1 + (w - 1) / 2 - w)

/-- The non-missing observations inside the window. -/
def windowVals (w : ℕ) (xs : Series) (i : ℕ) : List ℚ :=
  (windowSlice w xs i).filterMap id

/-- Sample median of a bag of rationals: middle order statistic for an odd
count, mean of the two middle ones for an even count (numpy/pandas median). -/
def listMedian (l : List ℚ) : ℚ :=
  let s := l.insertionSort (· ≤ ·)
  if l.length % 2 = 1 then s.getD (l.length / 2) 0
  else (s.getD (l.length / 2 - 1) 0 + s.getD (l.length / 2) 0) / 2

/-- Arithmetic mean. -/
def listMean (l : List ℚ) : ℚ := l.sum / l.length

/-- Sample variance with `ddof = 1`, the square of pandas' `.std()`.
Only used where the list has at least two elements. -/
def sampleVar (l : List ℚ) : ℚ :=
  ((l.map (fun x => (x - listMean l) ^ 2)).sum) / (l.length - 1 : ℕ)

/-- `rolling(w, center=True).median()` at position `i`: defined only when the
window holds `w` valid observations (`min_periods` defaults to `w`). -/
def rollingMedianAt (w : ℕ) (xs : Series) (i : ℕ) : Option ℚ :=
  if (windowVals w xs i).length = w ∧ 1 ≤ w then some (listMedian (windowVals w xs i)) else none

/-- The square of `rolling(w, center=True).std()` at position `i`: defined
only when the window holds `w` valid observations and `w ≥ 2` (the sample
standard deviation of a single observation is `NaN`).  The filter's
threshold comparisons are phrased on this square (see `upperMask`). -/
def rollingVarAt (w : ℕ) (xs : Series) (i : ℕ) : Option ℚ :=
  if (windowVals w xs i).length = w ∧ 2 ≤ w then some (sampleVar (windowVals w xs i)) else none

/-- The whole rolling-median column `dfc['median']`. -/
def rollingMedianCol (w : ℕ) (xs : Series) : Series :=
  (List.range xs.length).map (rollingMedianAt w xs)

/-- The square of the rolling-std column `dfc['std']`. -/
def rollingVarCol (w : ℕ) (xs : Series) : Series :=
  (List.range xs.length).map (rollingVarAt w xs)

/-- First mask assignment (utils.py line 39):
`dfc.loc[dfc[varname] >= dfc['median'] + std*dfc['std'], varname] = np.nan`.
For a nonnegative threshold `K` and `s2 = std²`, the float test
`x ≥ m + K·std` is equivalent to `m ≤ x ∧ K²·s2 ≤ (x-m)²` (see
`upper_cond_iff_sqrt`), which keeps the predicate decidable over ℚ.
A row whose value, median or std is `NaN` is never selected. -/
def upperMask (K : ℚ) (vals med s2col : Series) : Series :=
  (List.range vals.length).map fun i =>
    match vals.getD i none, med.getD i none, s2col.getD i none with
    | some x, some m, some s2 =>
        if m ≤ x ∧ K ^ 2 * s2 ≤ (x - m) ^ 2 then none else some x
    | v, _, _ => v

/-- Second mask assignment (utils.py line 41):
`dfc.loc[dfc[varname] <= dfc['median'] - std*dfc['std'], varname] = np.nan`.
It reads the value column already updated by the first mask, but the median
and std columns computed from the original column. -/
def lowerMask (K : ℚ) (vals med s2col : Series) : Series :=
  (List.range vals.length).map fun i =>
    match vals.getD i none, med.getD i none, s2col.getD i none with
    | some x, some m, some s2 =>
        if x ≤ m ∧ K ^ 2 * s2 ≤ (m - x) ^ 2 then none else some x
    | v, _, _ => v

/-- `median_filter` on the selected column (utils.py lines 33-43): compute
the rolling median and std columns from the input column, then apply the two
mask assignments in sequence. `window` is `W`, `std` (renamed `K` here to
avoid clashing with the statistic) is the threshold multiple. -/
def median_filter (window : ℕ) (K : ℚ) (xs : Series) : Series :=
  let med := rollingMedianCol window xs
  let s2 := rollingVarCol window xs
  lowerMask K (upperMask K xs med s2) med s2

/-- The value of the filtered column at position `i` (`i < xs.length`),
read off from the two sequential masks: the row is missing exactly when its
value, median and std all exist and the value lies at or beyond
`median ± K·std` (see `median_filter_getD`). -/
def filteredAt (w : ℕ) (K : ℚ) (xs : Series) (i : ℕ) : Option ℚ :=
  match xs.getD i none, rollingMedianAt w xs i, rollingVarAt w xs i with
  | some x, some m, some s2 =>
      if (m ≤ x ∧ K ^ 2 * s2 ≤ (x - m) ^ 2) ∨ (x ≤ m ∧ K ^ 2 * s2 ≤ (m - x) ^ 2)
      then none else some x
  | v, _, _ => v

/-- Modelled from the spec's words, for comparison with `median_filter`
(claim C1): the rolling median computed "over however many valid records are
available within the centered window, with no hard minimum-count
requirement", ignoring missing entries. -/
def truncMedianAt (w : ℕ) (xs : Series) (i : ℕ) : Option ℚ :=
  if 1 ≤ (windowVals w xs i).length then some (listMedian (windowVals w xs i)) else none

/-- Modelled from the spec's words, for comparison with `median_filter`
(claim C1): the square of the rolling standard deviation over however many
valid records are available in the truncated centered window (at least two,
for the sample standard deviation to exist), ignoring missing entries. -/
def truncVarAt (w : ℕ) (xs : Series) (i : ℕ) : Option ℚ :=
  if 2 ≤ (windowVals w xs i).length then some (sampleVar (windowVals w xs i)) else none

/-- Modelled from the spec's words, for comparison with `median_filter`
(claim C1): the filter as the spec describes it, with the rolling statistics
taken over the truncated window of available valid records at every
position. -/
def median_filter_spec_trunc (window : ℕ) (K : ℚ) (xs : Series) : Series :=
  let med := (List.range xs.length).map (truncMedianAt window xs)
  let s2 := (List.range xs.length).map (truncVarAt window xs)
  lowerMask K (upperMask K xs med s2) med s2

/-- The 48-value hourly table of the spec's concrete scenario: all values
`10` except index `24 = 1000`. -/
def table48 : Series := (List.range 48).map fun i => if i = 24 then some 1000 else some 10

/-- A pandas `KeyError` carrying the missing key. -/
structure KeyErr where
  key : String
deriving DecidableEq

/-- A dataframe for the filter's frame-level contract: an index and named
numeric columns.  `median_filter` never touches the index. -/
structure QFrame where
  index : List ℤ
  cols : List (String × Series)
deriving DecidableEq

/-- Column lookup, `df[v]` / `df.loc[:, v]`: `none` models the `KeyError`. -/
def lookupCol (df : QFrame) (v : String) : Option Series :=
  (df.cols.find? (fun p => p.1 == v)).map (·.2)

/-- Column lookup with an irrelevant default (only used after presence of
the column is established). -/
def getColD (df : QFrame) (v : String) : Series := (lookupCol df v).getD []

/-- Column assignment `cols[name] = s`: overwrite an existing column of that
name, otherwise append a new one. -/
def setColQ (cols : List (String × Series)) (name : String) (s : Series) :
    List (String × Series) :=
  if cols.any (fun p => p.1 == name) then
    cols.map (fun p => if p.1 == name then (p.1, s) else p)
  else cols ++ [(name, s)]

/-- `median_filter` at the frame level (utils.py lines 33-43), threading the
caller's frame through to expose its post-call state.  Line by line:
`dfc = df.loc[:,[varname]]` raises `KeyError` for an absent column and
otherwise builds a fresh one-column copy (pandas `.loc` selection with a
column list copies), so every later write is a functional update of the
local `dfc` and the caller's `df` flows through untouched; the `median` and
`std` columns are stored in `dfc` and the two mask writes update
`dfc[varname]` in sequence; the result is the final `dfc.loc[:, varname]`.
The stored `std` column is the squared standard deviation, consumed by the
masks in their squared comparisons. -/
def median_filter_frame (df : QFrame) (varname : String) (window : ℕ) (K : ℚ) :
    Except KeyErr (QFrame × Series) :=
  match lookupCol df varname with
  | none => Except.error { key := varname }
  | some col =>
    let dfc : QFrame := ⟨df.index, [(varname, col)]⟩
    let dfc : QFrame :=
      ⟨dfc.index, setColQ dfc.cols "median" (rollingMedianCol window (getColD dfc varname))⟩
    let dfc : QFrame :=
      ⟨dfc.index, setColQ dfc.cols "std" (rollingVarCol window (getColD dfc varname))⟩
    let dfc : QFrame :=
      ⟨dfc.index,
       setColQ dfc.cols varname
         (upperMask K (getColD dfc varname) (getColD dfc "median") (getColD dfc "std"))⟩
    let dfc : QFrame :=
      ⟨dfc.index,
       setColQ dfc.cols varname
         (lowerMask K (getColD dfc varname) (getColD dfc "median") (getColD dfc "std"))⟩
    Except.ok (df, getColD dfc varname)

/-- A timestamp: its calendar year and the position of the timestamp within
that year. -/
structure Date where
  year : ℤ
  sub : ℕ
deriving DecidableEq

/-- Chronological order on timestamps. -/
def dateLE (a b : Date) : Prop :=
  a.year < b.year ∨ (a.year = b.year ∧ a.sub ≤ b.sub)

instance (a b : Date) : Decidable (dateLE a b) := by
  unfold dateLE; infer_instance

/-- A date-indexed dataframe (the input of `prepare_data`): the name of its
datetime index, the names of its data columns, and its rows (index entry
plus data cells). -/
structure DFrame where
  indexName : String
  colNames : List String
  rows : List (Date × List ℚ)
deriving DecidableEq

/-- A dataframe after `reset_index`: its former index is now the first
column (the head of `colNames`), and its new index is the default range
index (left implicit). -/
structure RFrame where
  colNames : List String
  rows : List (Date × List ℚ)
deriving DecidableEq

/-- `data.loc[:str(y)]` on a chronologically sorted datetime index: the rows
whose year is at most `y`.  pandas resolves the partial-string label `str(y)`
to the end of year `y` and slices; on a sorted index that selects exactly
these rows (on an unsorted index pandas raises instead, whence the sortedness
hypothesis carried by the theorems below). -/
def loc_upto_year (df : DFrame) (y : ℤ) : DFrame :=
  { df with rows := df.rows.filter (fun r => r.1.year ≤ y) }

/-- `data.loc[str(y):]` on a chronologically sorted datetime index: the rows
whose year is at least `y`. -/
def loc_from_year (df : DFrame) (y : ℤ) : DFrame :=
  { df with rows := df.rows.filter (fun r => y ≤ r.1.year) }

/-- `reset_index(inplace=True)`: the datetime index becomes the leading
column, named after the index. -/
def reset_index (df : DFrame) : RFrame :=
  ⟨df.indexName :: df.colNames, df.rows⟩

/-- `rename({old: new}, axis=1)`: renames every column called `old`. -/
def rename_col (old new : String) (f : RFrame) : RFrame :=
  { f with colNames := f.colNames.map (fun n => if n = old then new else n) }

/-- `prepare_data` (utils.py lines 73-85): split at the cutoff year
(`.loc[:str(year-1)]` / `.loc[str(year):]`), reset the index on each part,
and rename the column `datetime` to `ds`. -/
def prepare_data (data : DFrame) (year : ℤ) : RFrame × RFrame :=
  let data_train := loc_upto_year data (year - 1)
  let data_test := loc_from_year data year
  let data_train := reset_index data_train
  let data_test := reset_index data_test
  (rename_col "datetime" "ds" data_train, rename_col "datetime" "ds" data_test)

/-- A pandas cell: missing, a number, or a timestamp. -/
inductive PVal where
  | na : PVal
  | num : ℚ → PVal
  | date : Date → PVal
deriving DecidableEq

/-- A dataframe with an arbitrary (label) index and mixed-type columns, for
the glue functions `add_regressor` and `make_verif`. -/
structure VFrame where
  index : List PVal
  cols : List (String × List PVal)
deriving DecidableEq

/-- Column lookup; `none` models the `KeyError`. -/
def vlookup (df : VFrame) (v : String) : Option (List PVal) :=
  (df.cols.find? (fun p => p.1 == v)).map (·.2)

/-- Column assignment `df.loc[:, name] = s`: overwrite an existing column of
that name, otherwise append a new one. -/
def vsetCol (df : VFrame) (name : String) (s : List PVal) : VFrame :=
  { df with
    cols :=
      if df.cols.any (fun p => p.1 == name) then
        df.cols.map (fun p => if p.1 == name then (p.1, s) else p)
      else df.cols ++ [(name, s)] }

/-- Index alignment of a labelled column onto a target index: each target
label gets the source value at that label, missing where the label is absent.
pandas raises on duplicate source labels instead of picking one, so the
first-match choice here is exact only for duplicate-free source indices
(the theorems below carry a `Nodup` hypothesis where alignment matters). -/
def alignTo (idx : List PVal) (srcIdx : List PVal) (srcVals : List PVal) : List PVal :=
  idx.map fun lbl =>
    match (srcIdx.zip srcVals).find? (fun p => p.1 == lbl) with
    | some p => p.2
    | none => PVal.na

/-- `df.index = pd.to_datetime(df.ds)` (utils.py lines 173-177): sets the
frame's index, in place, to its `ds` column (`pd.to_datetime` is the
identity on the datetime-valued `ds` columns used here); fails with a lookup
error when there is no `ds` column. -/
def set_index_from_ds (df : VFrame) : Except KeyErr VFrame :=
  match vlookup df "ds" with
  | none => Except.error { key := "ds" }
  | some ds => Except.ok { df with index := ds }

/-- `pd.concat([a, b], axis=0)`: indices are stacked; a column of `a` is
extended with `b`'s column of the same name (missing-marker padding when `b`
lacks it), and the columns only in `b` are padded with missing markers for
`a`'s rows. -/
def vconcat (a b : VFrame) : VFrame :=
  ⟨a.index ++ b.index,
    a.cols.map
      (fun p => (p.1, p.2 ++ ((vlookup b p.1).getD (List.replicate b.index.length PVal.na)))) ++
    (b.cols.filter (fun p => (vlookup a p.1).isNone)).map
      (fun p => (p.1, List.replicate a.index.length PVal.na ++ p.2))⟩

/-- `make_verif` (utils.py lines 173-183), threading the caller's three
frames through to expose their post-call states: the returned tuple is
(result, forecast after the call, data_train after the call, data_test after
the call).  The index assignments act in place on the argument objects, the
train and test frames are concatenated, the observed column `y` is written
into the forecast frame in place (aligned to its index), and the mutated
forecast object itself is returned. -/
def make_verif (forecast data_train data_test : VFrame) :
    Except KeyErr (VFrame × VFrame × VFrame × VFrame) :=
  match set_index_from_ds forecast with
  | Except.error e => Except.error e
  | Except.ok f1 =>
    match set_index_from_ds data_train with
    | Except.error e => Except.error e
    | Except.ok t1 =>
      match set_index_from_ds data_test with
      | Except.error e => Except.error e
      | Except.ok t2 =>
        let data := vconcat t1 t2
        match vlookup data "y" with
        | none => Except.error { key := "y" }
        | some ycol =>
          let f2 := vsetCol f1 "y" (alignTo f1.index data.index ycol)
          Except.ok (f2, f2, t1, t2)

/-- `add_regressor` (utils.py lines 111-115), threading the caller's frames
through to expose their post-call states: the returned tuple is (result,
data after the call, regressor after the call).  `data.copy()` makes the
write below a functional update of the fresh copy, so both arguments flow
through untouched; `regressor.loc[:, varname]` fails with a lookup error for
an absent column; the assignment
`data_with_regressors.loc[:, varname] = regressor.loc[:, varname]` aligns
the regressor column to the target's index. -/
def add_regressor (data regressor : VFrame) (varname : String) :
    Except KeyErr (VFrame × VFrame × VFrame) :=
  match vlookup regressor varname with
  | none => Except.error { key := varname }
  | some src =>
    let data_with_regressors := data
    let data_with_regressors :=
      vsetCol data_with_regressors varname (alignTo data.index regressor.index src)
    Except.ok (data_with_regressors, data, regressor)

/-- A small example frame for the filter's frame-level contract. -/
def dfEx : QFrame := ⟨[0, 1], [("y", [some 1, some 100])]⟩

/-- Example input of `prepare_data`: one record per year, 2015 through 2018,
with a datetime index named `datetime` and one data column `y`. -/
def dfYears : DFrame :=
  ⟨"datetime", ["y"],
   [(⟨2015, 0⟩, [1]), (⟨2016, 0⟩, [2]), (⟨2017, 0⟩, [3]), (⟨2018, 0⟩, [4])]⟩

/-- Example forecast frame for `make_verif`: a range index, a datetime `ds`
column and a prediction column. -/
def mvForecast : VFrame :=
  ⟨[PVal.num 0], [("ds", [PVal.date ⟨2017, 0⟩]), ("yhat", [PVal.num 7])]⟩

/-- Example training frame for `make_verif`. -/
def mvTrain : VFrame :=
  ⟨[PVal.num 0], [("ds", [PVal.date ⟨2017, 0⟩]), ("y", [PVal.num 5])]⟩

/-- Example test frame for `make_verif`. -/
def mvTest : VFrame :=
  ⟨[PVal.num 1], [("ds", [PVal.date ⟨2017, 1⟩]), ("y", [PVal.num 6])]⟩

/-- The state of `mvTrain` after `make_verif`: its index now holds the dates
of its `ds` column. -/
def mvTrainAfter : VFrame :=
  ⟨[PVal.date ⟨2017, 0⟩], [("ds", [PVal.date ⟨2017, 0⟩]), ("y", [PVal.num 5])]⟩

/-- The state of `mvTest` after `make_verif`. -/
def mvTestAfter : VFrame :=
  ⟨[PVal.date ⟨2017, 1⟩], [("ds", [PVal.date ⟨2017, 1⟩]), ("y", [PVal.num 6])]⟩

/-- The frame returned by `make_verif` on the example inputs: the forecast
frame, date-indexed, with the observed column `y` written into it. -/
def mvResult : VFrame :=
  ⟨[PVal.date ⟨2017, 0⟩],
   [("ds", [PVal.date ⟨2017, 0⟩]), ("yhat", [PVal.num 7]), ("y", [PVal.num 5])]⟩

/-! ## Support lemmas -/

theorem getD_range_map {α : Type} (n : ℕ) (f : ℕ → α) (i : ℕ) (d : α) (hi : i < n) :
    ((List.range n).map f).getD i d = f i := by
  rw [List.getD_eq_getElem?_getD, List.getElem?_map, List.getElem?_range hi]
  rfl

theorem getD_eq_getElem' {α : Type} (l : List α) (i : ℕ) (d : α) (h : i < l.length) :
    l.getD i d = l[i] := by
  rw [List.getD_eq_getElem?_getD, List.getElem?_eq_getElem h]
  rfl

theorem getD_of_ge {α : Type} (l : List α) (i : ℕ) (d : α) (h : l.length ≤ i) :
    l.getD i d = d := by
  rw [List.getD_eq_getElem?_getD, List.getElem?_eq_none h]
  rfl

theorem upperMask_length (K : ℚ) (vals med s2 : Series) :
    (upperMask K vals med s2).length = vals.length := by
  simp [upperMask]

theorem lowerMask_length (K : ℚ) (vals med s2 : Series) :
    (lowerMask K vals med s2).length = vals.length := by
  simp [lowerMask]

theorem median_filter_length (w : ℕ) (K : ℚ) (xs : Series) :
    (median_filter w K xs).length = xs.length := by
  simp [median_filter, lowerMask_length, upperMask_length]

theorem median_filter_getD (w : ℕ) (K : ℚ) (xs : Series) (i : ℕ) (hi : i < xs.length) :
    (median_filter w K xs).getD i none = filteredAt w K xs i := by
  have hmed : (rollingMedianCol w xs).getD i none = rollingMedianAt w xs i :=
    getD_range_map _ _ _ _ hi
  have hs2 : (rollingVarCol w xs).getD i none = rollingVarAt w xs i :=
    getD_range_map _ _ _ _ hi
  have hup : (upperMask K xs (rollingMedianCol w xs) (rollingVarCol w xs)).getD i none =
      (match xs.getD i none, rollingMedianAt w xs i, rollingVarAt w xs i with
        | some x, some m, some s2 =>
            if m ≤ x ∧ K ^ 2 * s2 ≤ (x - m) ^ 2 then none else some x
        | v, _, _ => v) := by
    unfold upperMask
    rw [getD_range_map _ _ _ _ hi, hmed, hs2]
  have hulen : (upperMask K xs (rollingMedianCol w xs) (rollingVarCol w xs)).length
      = xs.length := upperMask_length ..
  show (lowerMask K (upperMask K xs (rollingMedianCol w xs) (rollingVarCol w xs))
      (rollingMedianCol w xs) (rollingVarCol w xs)).getD i none = _
  unfold lowerMask
  rw [getD_range_map _ _ _ _ (by rw [hulen]; exact hi), hup, hmed, hs2]
  unfold filteredAt
  rcases hx : xs.getD i none with _ | x
  · rcases rollingMedianAt w xs i with _ | m <;>
      rcases rollingVarAt w xs i with _ | s2 <;> rfl
  · rcases rollingMedianAt w xs i with _ | m
    · rcases rollingVarAt w xs i with _ | s2 <;> rfl
    · rcases rollingVarAt w xs i with _ | s2
      · rfl
      · by_cases hc1 : m ≤ x ∧ K ^ 2 * s2 ≤ (x - m) ^ 2
        · simp [hc1]
        · by_cases hc2 : x ≤ m ∧ K ^ 2 * s2 ≤ (m - x) ^ 2 <;> simp [hc1, hc2]

theorem median_filter_getD_of_ge (w : ℕ) (K : ℚ) (xs : Series) (i : ℕ)
    (hi : xs.length ≤ i) : (median_filter w K xs).getD i none = none :=
  getD_of_ge _ _ _ (by rw [median_filter_length]; exact hi)

theorem median_filter_none_or_eq (w : ℕ) (K : ℚ) (xs : Series) (i : ℕ) :
    (median_filter w K xs).getD i none = none ∨
      (median_filter w K xs).getD i none = xs.getD i none := by
  rcases lt_or_ge i xs.length with hi | hi
  · rw [median_filter_getD w K xs i hi]
    unfold filteredAt
    rcases hx : xs.getD i none with _ | x
    · rcases rollingMedianAt w xs i with _ | m <;>
        rcases rollingVarAt w xs i with _ | s2 <;> exact Or.inl rfl
    · rcases rollingMedianAt w xs i with _ | m
      · rcases rollingVarAt w xs i with _ | s2 <;> exact Or.inr rfl
      · rcases rollingVarAt w xs i with _ | s2
        · exact Or.inr rfl
        · by_cases hc : (m ≤ x ∧ K ^ 2 * s2 ≤ (x - m) ^ 2) ∨
              (x ≤ m ∧ K ^ 2 * s2 ≤ (m - x) ^ 2)
          · left; simp [hc]
          · right; simp [hc]
  · exact Or.inl (median_filter_getD_of_ge w K xs i hi)

theorem windowSlice_length (w : ℕ) (xs : Series) (i : ℕ) :
    (windowSlice w xs i).length
      = min (i + 1 + (w - 1) / 2) xs.length - (i + 1 + (w - 1) / 2 - w) := by
  simp [windowSlice]

theorem windowSlice_getElem? (w : ℕ) (xs : Series) (i n : ℕ) :
    (windowSlice w xs i)[n]? =
      if i + 1 + (w - 1) / 2 - w + n < i + 1 + (w - 1) / 2
      then xs[i + 1 + (w - 1) / 2 - w + n]? else none := by
  unfold windowSlice
  rw [List.getElem?_drop, List.getElem?_take]

theorem filterMap_id_all_some {l : List (Option ℚ)}
    (h : (l.filterMap id).length = l.length) : ∀ v ∈ l, ∃ x : ℚ, v = some x := by
  induction l with
  | nil => simp
  | cons a t ih =>
    rcases a with _ | x
    · exfalso
      have hle := List.length_filterMap_le (id : Option ℚ → Option ℚ) t
      simp [List.filterMap_cons] at h
      omega
    · intro v hv
      rcases List.mem_cons.mp hv with rfl | hv
      · exact ⟨x, rfl⟩
      · refine ih ?_ v hv
        simpa [List.filterMap_cons] using h

theorem full_window (w : ℕ) (xs : Series) (i : ℕ) (hw : 1 ≤ w)
    (h : (windowVals w xs i).length = w) :
    (windowSlice w xs i).length = w ∧
    (∀ v ∈ windowSlice w xs i, ∃ x : ℚ, v = some x) ∧
    i < xs.length ∧
    ∃ x : ℚ, xs.getD i none = some x ∧ x ∈ windowVals w xs i := by
  have hsub : (windowVals w xs i).length ≤ (windowSlice w xs i).length :=
    List.length_filterMap_le _ _
  have hslen := windowSlice_length w xs i
  have hoff : (w - 1) / 2 ≤ w - 1 := Nat.div_le_self _ _
  have hslice : (windowSlice w xs i).length = w := by omega
  have hall : ∀ v ∈ windowSlice w xs i, ∃ x : ℚ, v = some x := by
    apply filterMap_id_all_some
    show (windowVals w xs i).length = (windowSlice w xs i).length
    rw [h, hslice]
  have hrange : i + 1 + (w - 1) / 2 ≤ xs.length ∧ w ≤ i + 1 + (w - 1) / 2 := by omega
  have hi : i < xs.length := by omega
  refine ⟨hslice, hall, hi, ?_⟩
  have hidx : i + 1 + (w - 1) / 2 - w + (i - (i + 1 + (w - 1) / 2 - w)) = i := by omega
  have hmem : xs[i] ∈ windowSlice w xs i := by
    apply List.getElem?_mem (n := i - (i + 1 + (w - 1) / 2 - w))
    rw [windowSlice_getElem?, hidx]
    rw [if_pos (by omega), List.getElem?_eq_getElem hi]
  rcases hall _ hmem with ⟨x, hx⟩
  refine ⟨x, ?_, ?_⟩
  · rw [getD_eq_getElem' _ _ _ hi, hx]
  · unfold windowVals
    exact List.mem_filterMap.mpr ⟨some x, hx ▸ hmem, rfl⟩

theorem windowSlice_congr (w : ℕ) (xs ys : Series) (i : ℕ)
    (hlen : ys.length = xs.length)
    (hys : ∀ j, ys.getD j none = none ∨ ys.getD j none = xs.getD j none)
    (hall : ∀ v ∈ windowSlice w ys i, ∃ x : ℚ, v = some x) :
    windowSlice w ys i = windowSlice w xs i := by
  apply List.ext_getElem?
  intro n
  rw [windowSlice_getElem?, windowSlice_getElem?]
  split
  · rcases lt_or_ge (i + 1 + (w - 1) / 2 - w + n) ys.length with hm | hm
    · have hsome : ys[i + 1 + (w - 1) / 2 - w + n] ∈ windowSlice w ys i := by
        apply List.getElem?_mem (n := n)
        rw [windowSlice_getElem?]
        rw [if_pos (by assumption), List.getElem?_eq_getElem hm]
      rcases hall _ hsome with ⟨x, hx⟩
      have hyd : ys.getD (i + 1 + (w - 1) / 2 - w + n) none = some x := by
        rw [getD_eq_getElem' _ _ _ hm, hx]
      have hxd : xs.getD (i + 1 + (w - 1) / 2 - w + n) none = some x := by
        rcases hys (i + 1 + (w - 1) / 2 - w + n) with h0 | heq
        · rw [hyd] at h0; exact absurd h0 (by simp)
        · rw [← heq, hyd]
      have hmx : i + 1 + (w - 1) / 2 - w + n < xs.length := by omega
      rw [List.getElem?_eq_getElem hm, List.getElem?_eq_getElem hmx]
      rw [getD_eq_getElem' _ _ _ hm] at hyd
      rw [getD_eq_getElem' _ _ _ hmx] at hxd
      rw [hyd, hxd]
    · rw [List.getElem?_eq_none hm, List.getElem?_eq_none (by omega)]
  · rfl

theorem sampleVar_nonneg (l : List ℚ) : 0 ≤ sampleVar l := by
  unfold sampleVar
  apply div_nonneg
  · apply List.sum_nonneg
    intro x hx
    rcases List.mem_map.mp hx with ⟨y, _, rfl⟩
    positivity
  · positivity

theorem sum_eq_zero_of_nonneg {l : List ℚ} (h0 : ∀ x ∈ l, 0 ≤ x) (hs : l.sum = 0) :
    ∀ x ∈ l, x = 0 := by
  induction l with
  | nil => simp
  | cons a t ih =>
    have ha : 0 ≤ a := h0 a (by simp)
    have ht : 0 ≤ t.sum := List.sum_nonneg (fun x hx => h0 x (by simp [hx]))
    have hsum : a + t.sum = 0 := by simpa using hs
    intro x hx
    rcases List.mem_cons.mp hx with rfl | hx
    · linarith
    · exact ih (fun y hy => h0 y (by simp [hy])) (by linarith) x hx

theorem sampleVar_zero_all_mean {l : List ℚ} (hl : 2 ≤ l.length)
    (h : sampleVar l = 0) : ∀ x ∈ l, x = listMean l := by
  have hden : ((l.length - 1 : ℕ) : ℚ) ≠ 0 := Nat.cast_ne_zero.mpr (by omega)
  have hsum : (l.map (fun x => (x - listMean l) ^ 2)).sum = 0 := by
    unfold sampleVar at h
    rcases div_eq_zero_iff.mp h with h' | h'
    · exact h'
    · exact absurd h' hden
  intro x hx
  have hzero : (x - listMean l) ^ 2 = 0 := by
    refine sum_eq_zero_of_nonneg ?_ hsum _ (List.mem_map_of_mem _ hx)
    intro y hy
    rcases List.mem_map.mp hy with ⟨z, _, rfl⟩
    positivity
  have := sq_eq_zero_iff.mp hzero
  linarith

theorem listMedian_const {l : List ℚ} {c : ℚ} (hlen : 1 ≤ l.length)
    (hc : ∀ x ∈ l, x = c) : listMedian l = c := by
  have hperm := List.perm_insertionSort (· ≤ ·) l
  have hsl : (l.insertionSort (· ≤ ·)).length = l.length := List.length_insertionSort ..
  have hcs : ∀ x ∈ l.insertionSort (· ≤ ·), x = c := fun x hx => hc x (hperm.mem_iff.mp hx)
  have h1 : (l.insertionSort (· ≤ ·)).getD (l.length / 2) 0 = c := by
    rw [getD_eq_getElem' _ _ _ (by omega)]
    exact hcs _ (List.getElem_mem _)
  have h2 : (l.insertionSort (· ≤ ·)).getD (l.length / 2 - 1) 0 = c := by
    rw [getD_eq_getElem' _ _ _ (by omega)]
    exact hcs _ (List.getElem_mem _)
  unfold listMedian
  split
  · exact h1
  · show ((l.insertionSort (· ≤ ·)).getD (l.length / 2 - 1) 0 +
        (l.insertionSort (· ≤ ·)).getD (l.length / 2) 0) / 2 = c
    rw [h1, h2]; ring

theorem rollingMedianAt_congr (w : ℕ) (xs ys : Series) (i : ℕ)
    (h : windowSlice w ys i = windowSlice w xs i) :
    rollingMedianAt w ys i = rollingMedianAt w xs i := by
  unfold rollingMedianAt windowVals
  rw [h]

theorem rollingVarAt_congr (w : ℕ) (xs ys : Series) (i : ℕ)
    (h : windowSlice w ys i = windowSlice w xs i) :
    rollingVarAt w ys i = rollingVarAt w xs i := by
  unfold rollingVarAt windowVals
  rw [h]

theorem rollingMedianAt_eq_some {w : ℕ} {xs : Series} {i : ℕ} {m : ℚ}
    (h : rollingMedianAt w xs i = some m) :
    (windowVals w xs i).length = w ∧ 1 ≤ w ∧ m = listMedian (windowVals w xs i) := by
  unfold rollingMedianAt at h
  split at h
  · rename_i hcond
    exact ⟨hcond.1, hcond.2, (Option.some.inj h).symm⟩
  · exact absurd h (by simp)

theorem rollingVarAt_eq_some {w : ℕ} {xs : Series} {i : ℕ} {s2 : ℚ}
    (h : rollingVarAt w xs i = some s2) :
    (windowVals w xs i).length = w ∧ 2 ≤ w ∧ s2 = sampleVar (windowVals w xs i) := by
  unfold rollingVarAt at h
  split at h
  · rename_i hcond
    exact ⟨hcond.1, hcond.2, (Option.some.inj h).symm⟩
  · exact absurd h (by simp)

theorem cond_iff_sqrt (x m K s2 : ℚ) (hK : 0 ≤ K) (hs2 : 0 ≤ s2) :
    ((m ≤ x ∧ K ^ 2 * s2 ≤ (x - m) ^ 2) ∨ (x ≤ m ∧ K ^ 2 * s2 ≤ (m - x) ^ 2)) ↔
      (K : ℝ) * Real.sqrt (s2 : ℝ) ≤ |(x : ℝ) - (m : ℝ)| := by
  have hq : ((m ≤ x ∧ K ^ 2 * s2 ≤ (x - m) ^ 2) ∨ (x ≤ m ∧ K ^ 2 * s2 ≤ (m - x) ^ 2)) ↔
      K ^ 2 * s2 ≤ (x - m) ^ 2 := by
    constructor
    · rintro (⟨_, h⟩ | ⟨_, h⟩)
      · exact h
      · calc K ^ 2 * s2 ≤ (m - x) ^ 2 := h
          _ = (x - m) ^ 2 := by ring
    · intro h
      rcases le_total m x with hmx | hxm
      · exact Or.inl ⟨hmx, h⟩
      · exact Or.inr ⟨hxm, by calc K ^ 2 * s2 ≤ (x - m) ^ 2 := h
          _ = (m - x) ^ 2 := by ring⟩
  rw [hq]
  have hsq : ((K : ℝ) * Real.sqrt (s2 : ℚ)) ^ 2 = (K : ℝ) ^ 2 * (s2 : ℚ) := by
    rw [mul_pow, Real.sq_sqrt (by exact_mod_cast hs2)]
  have ht : 0 ≤ (K : ℝ) * Real.sqrt (s2 : ℚ) :=
    mul_nonneg (by exact_mod_cast hK) (Real.sqrt_nonneg _)
  have key : (K : ℝ) * Real.sqrt (s2 : ℚ) ≤ |(x : ℝ) - (m : ℝ)| ↔
      (K : ℝ) ^ 2 * (s2 : ℚ) ≤ ((x : ℝ) - (m : ℝ)) ^ 2 := by
    rw [← hsq, ← sq_abs ((x : ℝ) - (m : ℝ))]
    exact (pow_le_pow_iff_left₀ ht (abs_nonneg _) two_ne_zero).symm
  rw [key]
  constructor
  · intro h
    exact_mod_cast h
  · intro h
    exact_mod_cast h

/-! ## Claim theorems -/

/-- C1, counterexample: on a table of three valid values with `W = 24`,
`median_filter` leaves every value in place (the rolling statistics need a
full window of 24 valid records, which never exists), while the
truncated-window filter the claim describes marks every value missing (each
truncated window is the constant list `[10, 10, 10]`, whose median is `10`
and standard deviation `0`, so the inclusive bound fires everywhere).  The
two disagree at every position, so the statistics are not computed over
"however many valid records are available". -/
theorem c1_truncated_window_counterexample :
    median_filter 24 3 [some 10, some 10, some 10] = [some 10, some 10, some 10] ∧
      median_filter_spec_trunc 24 3 [some 10, some 10, some 10] = [none, none, none] ∧
      median_filter 24 3 [some 10, some 10, some 10] ≠
        median_filter_spec_trunc 24 3 [some 10, some 10, some 10] := by
  refine ⟨by decide, by decide, by decide⟩

/-- C1, amended: the rolling statistics demand a full window of `W` valid
records (pandas' `min_periods` defaults to the window size); at any record
whose centered window holds fewer than `W` valid records — near the two
boundaries, at every position of a table shorter than `W`, and wherever a
missing value lies inside the window — the statistics are missing, both
threshold comparisons are false, and the record passes through unchanged.
The output still has the input's length. -/
theorem c1_short_window_passthrough (w : ℕ) (K : ℚ) (xs : Series) (i : ℕ)
    (h : (windowVals w xs i).length < w) :
    (median_filter w K xs).length = xs.length ∧
      (median_filter w K xs).getD i none = xs.getD i none := by
  refine ⟨median_filter_length w K xs, ?_⟩
  rcases lt_or_ge i xs.length with hi | hi
  · rw [median_filter_getD w K xs i hi]
    unfold filteredAt
    have hm : rollingMedianAt w xs i = none := by
      unfold rollingMedianAt
      rw [if_neg (by rintro ⟨h1, _⟩; omega)]
    rcases hx : xs.getD i none with _ | x <;> rw [hm]
  · rw [median_filter_getD_of_ge w K xs i hi, getD_of_ge _ _ _ hi]

/-- C1, witness for the amended claim at a table shorter than `W`. -/
theorem c1_short_window_passthrough_witness :
    (median_filter 24 3 [some 10, some 10, some 10]).length = 3 ∧
      (median_filter 24 3 [some 10, some 10, some 10]).getD 0 none = some 10 := by
  have h := c1_short_window_passthrough 24 3 [some 10, some 10, some 10] 0 (by decide)
  exact ⟨h.1, h.2.trans rfl⟩

set_option maxRecDepth 1000000 in
/-- C2, counterexample: on the spec's 48-value scenario (`W = 24`, `K = 3`),
the output at index 12 is the missing marker, not `10`: the window of
index 12 covers indices 0 through 23, misses the spike at 24, and is
constant, so its standard deviation is `0` and the inclusive bound marks the
value there.  The claim says every index other than 24 keeps the value 10. -/
theorem c2_scenario48_counterexample :
    (median_filter 24 3 table48).getD 12 none = none ∧
      (median_filter 24 3 table48).getD 12 none ≠ some 10 ∧ (12 : ℕ) ≠ 24 := by
  refine ⟨by decide, by decide, by decide⟩

set_option maxRecDepth 1000000 in
/-- C2, amended: on the 48-value table of tens with `1000` at index 24,
`median_filter` with `W = 24`, `K = 3` returns the missing marker at
index 24 (the spike) and also at index 12 (whose full window `0..23` is
constant with zero standard deviation, so the inclusive bound fires), and
the value `10` everywhere else; near the boundaries (indices `0..11` and
`37..47`) the rolling statistics are missing and the values pass through. -/
theorem c2_scenario48 :
    median_filter 24 3 table48 =
      (List.range 48).map (fun i => if i = 12 ∨ i = 24 then none else some 10) := by
  decide

/-- C3: at any record with a full window of valid values (rolling median and
standard deviation both defined), the filtered value equals the original
value exactly when `|value - median| < K·std`, and is the missing marker
otherwise; in particular a tie (value exactly at `median ± K·std`) falls in
the missing case, because the source's comparisons are inclusive. -/
theorem c3_interior_threshold (w : ℕ) (K : ℚ) (xs : Series) (i : ℕ) (x m s2 : ℚ)
    (hK : 0 ≤ K) (hx : xs.getD i none = some x)
    (hm : rollingMedianAt w xs i = some m)
    (hv : rollingVarAt w xs i = some s2) :
    (median_filter w K xs).getD i none =
      if |(x : ℝ) - (m : ℝ)| < (K : ℝ) * Real.sqrt (s2 : ℝ) then some x else none := by
  obtain ⟨hlen, hw2, hvar⟩ := rollingVarAt_eq_some hv
  obtain ⟨-, -, hi, -⟩ := full_window w xs i (by omega) hlen
  have hs2 : 0 ≤ s2 := hvar ▸ sampleVar_nonneg _
  rw [median_filter_getD w K xs i hi]
  unfold filteredAt
  rw [hx, hm, hv]
  by_cases hcond : (m ≤ x ∧ K ^ 2 * s2 ≤ (x - m) ^ 2) ∨ (x ≤ m ∧ K ^ 2 * s2 ≤ (m - x) ^ 2)
  · have hge := (cond_iff_sqrt x m K s2 hK hs2).mp hcond
    rw [if_neg (not_lt.mpr hge)]
    simp [hcond]
  · have hlt : |(x : ℝ) - (m : ℝ)| < (K : ℝ) * Real.sqrt (s2 : ℝ) := by
      by_contra hge
      exact hcond ((cond_iff_sqrt x m K s2 hK hs2).mpr (not_lt.mp hge))
    rw [if_pos hlt]
    simp [hcond]

/-- C3, witness: a full constant window, whose standard deviation is zero;
the value ties with `median + K·std`, so it is marked missing. -/
theorem c3_interior_threshold_witness :
    (median_filter 2 3 [some 10, some 10]).getD 1 none = none := by
  have h := c3_interior_threshold 2 3 [some 10, some 10] 1 10 10 0 (by norm_num)
    (by decide) (by decide) (by decide)
  rw [h, if_neg (by simp)]

/-- C4: at any record where the rolling standard deviation is exactly zero,
the filter marks the record missing exactly when its value equals the
rolling median.  (Both sides in fact hold: zero sample variance forces the
whole window — which contains the record itself — to be constant, so the
value equals the window median and the inclusive `>=` bound fires.) -/
theorem c4_zero_std_equality_test (w : ℕ) (K : ℚ) (xs : Series) (i : ℕ)
    (hv : rollingVarAt w xs i = some 0) :
    ((median_filter w K xs).getD i none = none) ↔
      (xs.getD i none = rollingMedianAt w xs i) := by
  obtain ⟨hlen, hw2, hvar⟩ := rollingVarAt_eq_some hv
  obtain ⟨-, -, hi, x, hx, hxmem⟩ := full_window w xs i (by omega) hlen
  have hconst : ∀ y ∈ windowVals w xs i, y = listMean (windowVals w xs i) :=
    sampleVar_zero_all_mean (by omega) hvar.symm
  have hmed : rollingMedianAt w xs i = some (listMedian (windowVals w xs i)) := by
    unfold rollingMedianAt
    rw [if_pos ⟨hlen, by omega⟩]
  have hmx : listMedian (windowVals w xs i) = x := by
    rw [listMedian_const (by omega) hconst, ← hconst x hxmem]
  have hout : (median_filter w K xs).getD i none = none := by
    rw [median_filter_getD w K xs i hi]
    unfold filteredAt
    rw [hx, hmed, hmx, hv]
    simp
  rw [hout, hx, hmed, hmx]
  simp

/-- C4, witness: a constant window gives a zero standard deviation; the
record equals its rolling median and is marked missing. -/
theorem c4_zero_std_equality_test_witness :
    rollingVarAt 2 [some 10, some 10] 1 = some 0 ∧
      (((median_filter 2 3 [some 10, some 10]).getD 1 none = none) ↔
        (([some 10, some 10] : Series).getD 1 none = rollingMedianAt 2 [some 10, some 10] 1)) :=
  ⟨by decide, c4_zero_std_equality_test 2 3 [some 10, some 10] 1 (by decide)⟩

/-- C6: re-applying the filter (same `W` and `K`) to its own output marks
nothing new: wherever the second pass is missing, the first pass already
was.  A record the second pass could mark needs defined rolling statistics,
hence a full valid window in the first pass's output; on such a window the
first pass changed nothing, so both passes see the same value and
statistics and make the same decision. -/
theorem c6_idempotent_no_new_missing (w : ℕ) (K : ℚ) (xs : Series) (i : ℕ)
    (h : (median_filter w K (median_filter w K xs)).getD i none = none) :
    (median_filter w K xs).getD i none = none := by
  rcases hyv : (median_filter w K xs).getD i none with _ | x
  · rfl
  · exfalso
    have hi : i < xs.length := by
      by_contra hge
      rw [median_filter_getD_of_ge w K xs i (le_of_not_lt hge)] at hyv
      exact Option.noConfusion hyv
    have hiy : i < (median_filter w K xs).length := by
      rw [median_filter_length]; exact hi
    rw [median_filter_getD w K (median_filter w K xs) i hiy] at h
    unfold filteredAt at h
    rw [hyv] at h
    rcases hm : rollingMedianAt w (median_filter w K xs) i with _ | m <;>
      rw [hm] at h
    · rcases rollingVarAt w (median_filter w K xs) i with _ | s2 <;> simp at h
    · rcases hv : rollingVarAt w (median_filter w K xs) i with _ | s2 <;> rw [hv] at h
      · simp at h
      · have h' : (if (m ≤ x ∧ K ^ 2 * s2 ≤ (x - m) ^ 2) ∨
            (x ≤ m ∧ K ^ 2 * s2 ≤ (m - x) ^ 2) then (none : Option ℚ) else some x)
            = none := h
        by_cases hcond : (m ≤ x ∧ K ^ 2 * s2 ≤ (x - m) ^ 2) ∨
            (x ≤ m ∧ K ^ 2 * s2 ≤ (m - x) ^ 2)
        · obtain ⟨hlenY, hw2, -⟩ := rollingVarAt_eq_some hv
          obtain ⟨-, hallY, -, -⟩ :=
            full_window w (median_filter w K xs) i (by omega) hlenY
          have hslices : windowSlice w (median_filter w K xs) i = windowSlice w xs i :=
            windowSlice_congr w xs (median_filter w K xs) i (median_filter_length w K xs)
              (fun j => median_filter_none_or_eq w K xs j) hallY
          have hmx : rollingMedianAt w xs i = some m := by
            rw [← rollingMedianAt_congr w xs (median_filter w K xs) i hslices]
            exact hm
          have hvx : rollingVarAt w xs i = some s2 := by
            rw [← rollingVarAt_congr w xs (median_filter w K xs) i hslices]
            exact hv
          have hxx : xs.getD i none = some x := by
            rcases median_filter_none_or_eq w K xs i with h0 | heq
            · rw [hyv] at h0; exact Option.noConfusion h0
            · rw [← heq]; exact hyv
          have hp1 : (median_filter w K xs).getD i none = none := by
            rw [median_filter_getD w K xs i hi]
            unfold filteredAt
            rw [hxx, hmx, hvx]
            show (if (m ≤ x ∧ K ^ 2 * s2 ≤ (x - m) ^ 2) ∨
                (x ≤ m ∧ K ^ 2 * s2 ≤ (m - x) ^ 2) then (none : Option ℚ) else some x)
                = none
            rw [if_pos hcond]
          rw [hp1] at hyv
          exact Option.noConfusion hyv
        · rw [if_neg hcond] at h'
          exact Option.noConfusion h'

set_option maxRecDepth 1000000 in
/-- C6, witness: on a constant 24-value table the first pass marks
index 12 (the only full window, constant, so the tie fires); the second
pass keeps it missing, and marks nothing new. -/
theorem c6_idempotent_no_new_missing_witness :
    (median_filter 24 3 (List.replicate 24 (some (10:ℚ)))).getD 12 none = none :=
  c6_idempotent_no_new_missing 24 3 (List.replicate 24 (some (10:ℚ))) 12 (by decide)

/-- C5: the frame-level filter leaves the caller's frame — index and every
column of every row — unchanged: `df.loc[:, [varname]]` copies, so the four
writes only touch the local copy, and the frame the caller holds after the
call is exactly the input frame.  The returned column is newly computed from
the input column (stated for a filtered name distinct from the two statistic
column names the local copy uses, where it is exactly the column-level
`median_filter`). -/
theorem c5_no_frame_mutation (df : QFrame) (v : String) (w : ℕ) (K : ℚ)
    (out : QFrame × Series) (h : median_filter_frame df v w K = Except.ok out) :
    out.1 = df ∧ (v ≠ "median" → v ≠ "std" →
      out.2 = median_filter w K (getColD df v)) := by
  unfold median_filter_frame at h
  split at h
  · exact Except.noConfusion h
  · rename_i col hcol
    have hout := (Except.ok.inj h).symm
    have hgd : getColD df v = col := by simp [getColD, hcol]
    subst hout
    refine ⟨rfl, fun hm hs => ?_⟩
    show getColD _ v = _
    rw [hgd]
    simp [getColD, lookupCol, setColQ, median_filter, hm, hs, Ne.symm hm, Ne.symm hs]

/-- C5, witness. -/
theorem c5_no_frame_mutation_witness :
    ((dfEx, [some (1:ℚ), some 100]) : QFrame × Series).1 = dfEx ∧
      ("y" ≠ "median" → "y" ≠ "std" →
        ((dfEx, [some (1:ℚ), some 100]) : QFrame × Series).2
          = median_filter 2 3 (getColD dfEx "y")) :=
  c5_no_frame_mutation dfEx "y" 2 3 (dfEx, [some (1:ℚ), some 100]) (by rfl)

/-- C8: filtering a column name that no column of the table carries fails
with a `KeyError` naming that column, raised by the very first access
`df.loc[:, [varname]]`, and produces no result frame or column. -/
theorem c8_missing_column_error (df : QFrame) (v : String) (w : ℕ) (K : ℚ)
    (h : ∀ p ∈ df.cols, p.1 ≠ v) :
    median_filter_frame df v w K = Except.error { key := v } := by
  have hlk : lookupCol df v = none := by
    unfold lookupCol
    rw [List.find?_eq_none.mpr (fun p hp => by simp [h p hp])]
    rfl
  unfold median_filter_frame
  rw [hlk]

/-- C8, witness: `dfEx` has a single column `y`; asking for `x` errors. -/
theorem c8_missing_column_error_witness :
    median_filter_frame dfEx "x" 24 3 = Except.error { key := "x" } :=
  c8_missing_column_error dfEx "x" 24 3 (by decide)

/-- C7, counterexample: `prepare_data` renames only a column literally named
`datetime`; on a date-indexed table whose index is named `date`, both
returned tables carry a `date` column and no `ds` column at all. -/
theorem c7_rename_counterexample :
    (prepare_data ⟨"date", ["y"], [(⟨2015, 0⟩, [1])]⟩ 2017).1.colNames = ["date", "y"] ∧
      "ds" ∉ (prepare_data ⟨"date", ["y"], [(⟨2015, 0⟩, [1])]⟩ 2017).1.colNames ∧
      "ds" ∉ (prepare_data ⟨"date", ["y"], [(⟨2015, 0⟩, [1])]⟩ 2017).2.colNames := by
  refine ⟨rfl, by decide, by decide⟩

/-- C7, amended: for a chronologically sorted table whose datetime index is
named `datetime` (and with no data column of that name), `prepare_data`
returns the training table holding exactly the records strictly before the
cutoff year and the test table holding exactly the records from the cutoff
year onward, each with the materialised date column renamed to `ds`; for an
index named otherwise the split is the same but the date column keeps the
index's name. -/
theorem c7_split_and_rename (df : DFrame) (y : ℤ)
    (_hsorted : List.Pairwise dateLE (df.rows.map Prod.fst))
    (hname : df.indexName = "datetime") (hnn : "datetime" ∉ df.colNames) :
    (prepare_data df y).1.rows = df.rows.filter (fun r => r.1.year < y) ∧
      (prepare_data df y).1.colNames = "ds" :: df.colNames ∧
      (prepare_data df y).2.rows = df.rows.filter (fun r => y ≤ r.1.year) ∧
      (prepare_data df y).2.colNames = "ds" :: df.colNames := by
  have hcols : df.colNames.map (fun n => if n = "datetime" then "ds" else n)
      = df.colNames := by
    rw [List.map_congr_left (fun a ha => if_neg (by intro he; exact hnn (he ▸ ha))),
      List.map_id']
  have hfilt : df.rows.filter (fun r => r.1.year ≤ y - 1)
      = df.rows.filter (fun r => r.1.year < y) := by
    apply List.filter_congr
    intro r _
    simp [Int.le_sub_one_iff]
  unfold prepare_data loc_upto_year loc_from_year reset_index rename_col
  refine ⟨hfilt, ?_, rfl, ?_⟩ <;>
    · show (if df.indexName = "datetime" then "ds" else df.indexName)
          :: df.colNames.map (fun n => if n = "datetime" then "ds" else n)
          = "ds" :: df.colNames
      rw [hname, if_pos rfl, hcols]

/-- C7, witness: the spec's scenario, one record in each of 2015-2018 with
cutoff 2017: the training part holds 2015-2016, the test part 2017-2018,
both led by a `ds` column. -/
theorem c7_split_and_rename_witness :
    (prepare_data dfYears 2017).1.rows = dfYears.rows.filter (fun r => r.1.year < 2017) ∧
      (prepare_data dfYears 2017).1.colNames = "ds" :: dfYears.colNames ∧
      (prepare_data dfYears 2017).2.rows = dfYears.rows.filter (fun r => 2017 ≤ r.1.year) ∧
      (prepare_data dfYears 2017).2.colNames = "ds" :: dfYears.colNames :=
  c7_split_and_rename dfYears 2017 (by decide) rfl (by decide)

theorem set_index_from_ds_ok {df f1 : VFrame} (h : set_index_from_ds df = Except.ok f1) :
    ∃ ds, vlookup df "ds" = some ds ∧ f1 = { df with index := ds } := by
  unfold set_index_from_ds at h
  split at h
  · exact Except.noConfusion h
  · rename_i ds hds
    exact ⟨ds, hds, (Except.ok.inj h).symm⟩

/-- C9, counterexample: `make_verif` mutates all three of its arguments.  On
the example frames it returns the forecast object itself with the observed
column written into it, and afterwards the caller's train and test frames
have date indices instead of their original range indices — none of the
three equals its pre-call value, so the operation is not mutation-free. -/
theorem c9_make_verif_counterexample :
    make_verif mvForecast mvTrain mvTest
        = Except.ok (mvResult, mvResult, mvTrainAfter, mvTestAfter) ∧
      mvTrainAfter ≠ mvTrain ∧ mvTestAfter ≠ mvTest ∧ mvResult ≠ mvForecast := by
  refine ⟨rfl, by decide, by decide, by decide⟩

/-- C9, amended: `make_verif` builds the date-indexed verification table —
the forecast rows with the observed `y` aligned by date — but by in-place
mutation: it re-indexes each of `forecast`, `data_train` and `data_test` to
the datetimes of its `ds` column, writes the observed column into the
forecast frame, and the table it returns is that mutated forecast argument
itself (the post-call states of the three arguments are exposed as the last
three components). -/
theorem c9_make_verif_mutates (f tr te r f2 tr2 te2 : VFrame)
    (h : make_verif f tr te = Except.ok (r, f2, tr2, te2)) :
    f2 = r ∧
      (∃ ds, vlookup tr "ds" = some ds ∧ tr2 = { tr with index := ds }) ∧
      (∃ ds, vlookup te "ds" = some ds ∧ te2 = { te with index := ds }) ∧
      (∃ ds ycol, vlookup f "ds" = some ds ∧
        vlookup (vconcat tr2 te2) "y" = some ycol ∧
        r = vsetCol { f with index := ds } "y"
          (alignTo ds (vconcat tr2 te2).index ycol)) := by
  unfold make_verif at h
  split at h
  · exact Except.noConfusion h
  · rename_i f1 hf1
    split at h
    · exact Except.noConfusion h
    · rename_i t1 ht1
      split at h
      · exact Except.noConfusion h
      · rename_i t2 ht2
        simp only [] at h
        split at h
        · exact Except.noConfusion h
        · rename_i ycol hy
          have h4 := Except.ok.inj h
          simp only [Prod.mk.injEq] at h4
          obtain ⟨hr, hf2, htr2, hte2⟩ := h4
          obtain ⟨dsf, hdsf, hf1e⟩ := set_index_from_ds_ok hf1
          obtain ⟨dst1, hdst1, ht1e⟩ := set_index_from_ds_ok ht1
          obtain ⟨dst2, hdst2, ht2e⟩ := set_index_from_ds_ok ht2
          refine ⟨hf2.symm.trans hr, ⟨dst1, hdst1, htr2.symm.trans ht1e⟩,
            ⟨dst2, hdst2, hte2.symm.trans ht2e⟩, dsf, ycol, hdsf, ?_, ?_⟩
          · rw [← htr2, ← hte2]
            exact hy
          · rw [← hr, hf1e, ← htr2, ← hte2]

/-- C9, witness for the amended claim on the example frames. -/
theorem c9_make_verif_mutates_witness :
    mvResult = mvResult ∧
      (∃ ds, vlookup mvTrain "ds" = some ds ∧
        mvTrainAfter = { mvTrain with index := ds }) ∧
      (∃ ds, vlookup mvTest "ds" = some ds ∧
        mvTestAfter = { mvTest with index := ds }) ∧
      (∃ ds ycol, vlookup mvForecast "ds" = some ds ∧
        vlookup (vconcat mvTrainAfter mvTestAfter) "y" = some ycol ∧
        mvResult = vsetCol { mvForecast with index := ds } "y"
          (alignTo ds (vconcat mvTrainAfter mvTestAfter).index ycol)) :=
  c9_make_verif_mutates mvForecast mvTrain mvTest mvResult mvResult
    mvTrainAfter mvTestAfter (by rfl)

theorem find?_setList_self (cols : List (String × List PVal)) (v : String) (s : List PVal)
    (h : cols.any (fun p => p.1 == v) = true) :
    (cols.map (fun p => if p.1 == v then (p.1, s) else p)).find? (fun p => p.1 == v)
      = some (v, s) := by
  induction cols with
  | nil => simp at h
  | cons q t ih =>
    rw [List.map_cons]
    by_cases hq : q.1 = v
    · have hfq : (if (q.1 == v) = true then (q.1, s) else q) = (v, s) := by simp [hq]
      rw [hfq, List.find?_cons_of_pos _ (by simp)]
    · have ht : t.any (fun p => p.1 == v) = true := by
        simpa [List.any_cons, hq] using h
      have hfq : (if (q.1 == v) = true then (q.1, s) else q) = q := by simp [hq]
      rw [hfq, List.find?_cons_of_neg _ (by simp [hq])]
      exact ih ht

theorem find?_setList_other (cols : List (String × List PVal)) (v c : String) (s : List PVal)
    (hc : c ≠ v) :
    (cols.map (fun p => if p.1 == v then (p.1, s) else p)).find? (fun p => p.1 == c)
      = cols.find? (fun p => p.1 == c) := by
  induction cols with
  | nil => rfl
  | cons q t ih =>
    rw [List.map_cons]
    by_cases hq : q.1 = v
    · have hfq : (if (q.1 == v) = true then (q.1, s) else q) = (q.1, s) := by simp [hq]
      rw [hfq, List.find?_cons_of_neg _ (by simp [hq, Ne.symm hc]),
        List.find?_cons_of_neg _ (by simp [hq, Ne.symm hc])]
      exact ih
    · have hfq : (if (q.1 == v) = true then (q.1, s) else q) = q := by simp [hq]
      rw [hfq]
      by_cases hqc : q.1 = c
      · rw [List.find?_cons_of_pos _ (by simp [hqc]),
          List.find?_cons_of_pos _ (by simp [hqc])]
      · rw [List.find?_cons_of_neg _ (by simp [hqc]),
          List.find?_cons_of_neg _ (by simp [hqc])]
        exact ih

theorem vlookup_vsetCol_self (df : VFrame) (v : String) (s : List PVal) :
    vlookup (vsetCol df v s) v = some s := by
  simp only [vlookup, vsetCol]
  by_cases hany : df.cols.any (fun p => p.1 == v) = true
  · rw [if_pos hany, find?_setList_self df.cols v s hany]
    rfl
  · rw [if_neg hany, List.find?_append, List.find?_eq_none.mpr ?_]
    · simp [List.find?_cons]
    · intro p hp hb
      exact hany (List.any_eq_true.mpr ⟨p, hp, hb⟩)

theorem vlookup_vsetCol_other (df : VFrame) (v c : String) (s : List PVal) (hc : c ≠ v) :
    vlookup (vsetCol df v s) c = vlookup df c := by
  simp only [vlookup, vsetCol]
  by_cases hany : df.cols.any (fun p => p.1 == v) = true
  · rw [if_pos hany, find?_setList_other df.cols v c s hc]
  · rw [if_neg hany, List.find?_append]
    have h2 : List.find? (fun p => p.1 == c) [(v, s)] = none := by
      simp [List.find?_cons, Ne.symm hc]
    rw [h2]
    cases List.find? (fun p => p.1 == c) df.cols <;> rfl

/-- C10, counterexample: when the target already carries a column of the
regressor's name, `add_regressor` overwrites it, so the result does not
contain "every column of the target unchanged": on a one-row target with
column `x = 1` and regressor `x = 2`, the result's `x` column is `2`. -/
theorem c10_add_regressor_counterexample :
    add_regressor ⟨[PVal.num 0], [("x", [PVal.num 1])]⟩
        ⟨[PVal.num 0], [("x", [PVal.num 2])]⟩ "x"
      = Except.ok (⟨[PVal.num 0], [("x", [PVal.num 2])]⟩,
          ⟨[PVal.num 0], [("x", [PVal.num 1])]⟩,
          ⟨[PVal.num 0], [("x", [PVal.num 2])]⟩) ∧
      vlookup (⟨[PVal.num 0], [("x", [PVal.num 2])]⟩ : VFrame) "x" ≠
        vlookup (⟨[PVal.num 0], [("x", [PVal.num 1])]⟩ : VFrame) "x" := by
  refine ⟨rfl, by decide⟩

/-- C10, amended: `add_regressor` operates on a copy, so the caller's target
and regressor frames flow through unchanged; the result keeps the target's
index and every target column other than the regressor's name, and its
column of that name is the regressor column aligned to the target's index
(stated for a regressor with a duplicate-free index, where the first-match
alignment model is exact). -/
theorem c10_add_regressor_amended (data regressor : VFrame) (v : String)
    (src : List PVal) (hsrc : vlookup regressor v = some src)
    (_hnd : regressor.index.Nodup) :
    ∃ res, add_regressor data regressor v = Except.ok (res, data, regressor) ∧
      res.index = data.index ∧
      vlookup res v = some (alignTo data.index regressor.index src) ∧
      ∀ c, c ≠ v → vlookup res c = vlookup data c := by
  refine ⟨vsetCol data v (alignTo data.index regressor.index src), ?_, rfl,
    vlookup_vsetCol_self data v _, fun c hc => vlookup_vsetCol_other data v c _ hc⟩
  unfold add_regressor
  rw [hsrc]

/-- C10, witness: attaching a fresh `temp` regressor column to the example
training frame. -/
theorem c10_add_regressor_amended_witness :
    ∃ res, add_regressor mvTrain ⟨[PVal.num 0], [("temp", [PVal.num 20])]⟩ "temp"
        = Except.ok (res, mvTrain, ⟨[PVal.num 0], [("temp", [PVal.num 20])]⟩) ∧
      res.index = mvTrain.index ∧
      vlookup res "temp"
        = some (alignTo mvTrain.index
            (⟨[PVal.num 0], [("temp", [PVal.num 20])]⟩ : VFrame).index [PVal.num 20]) ∧
      ∀ c, c ≠ "temp" → vlookup res c = vlookup mvTrain c :=
  c10_add_regressor_amended mvTrain ⟨[PVal.num 0], [("temp", [PVal.num 20])]⟩ "temp"
    [PVal.num 20] (by decide) (by decide)
